import Mathlib

/-!
# Wallet Saver allocation/ledger engine — shallow embedding

Embedding of the engine in `src/wallet_saver_starter_react_single_file.jsx`:
`distributeIncome`, `addTransaction`, `createGoal`, `exportData`, `importData`.

Modelling conventions:
* JavaScript numbers are modelled as `ℚ`.  A value that may be non-numeric
  (`NaN` after `Number(...)` coercion) is modelled as `Option ℚ`, with `none`
  standing for a non-numeric value; `Number(x) || 0` is `numOr`.
* `Math.round x` is `⌊x + 1/2⌋` (JS rounds half toward +∞), `Math.floor` is
  `⌊·⌋`, `Math.max`/`Math.min`/`Math.abs` are `max`/`min`/`|·|`.
* Optional identifier arguments (`categoryId`, `fromCategoryId`) are tested
  with JS truthiness (`if (categoryId)`), so `Option String` is used with
  `none` standing for any falsy value (`null`, `undefined`, `""`).
* The component state `(income, categories, transactions, goals)` is the
  `State` structure; each engine function is a pure `State → State` map, with
  the identifiers and timestamps that the source draws from `uid`/`Date`
  passed in as explicit arguments.
-/

structure Category where
  id : String
  name : String
  percent : Option ℚ
  balance : ℚ
deriving DecidableEq

structure Transaction where
  id : String
  title : String
  amount : ℚ
  categoryId : Option String
  date : String
deriving DecidableEq

structure Goal where
  id : String
  name : String
  targetAmount : ℚ
  saved : ℚ
deriving DecidableEq

structure State where
  income : ℚ
  categories : List Category
  transactions : List Transaction
  goals : List Goal
deriving DecidableEq

/-- `Number(x) || 0`: a non-numeric value coerces to `NaN`, which `|| 0`
turns into `0`; a numeric value passes through (`0 || 0` is `0`). -/
def numOr (x : Option ℚ) : ℚ := x.getD 0

/-- JS `Math.round`: round half toward positive infinity. -/
def jsRound (x : ℚ) : ℤ := ⌊x + 1/2⌋

/-- `categories.reduce((s, c) => s + (Number(c.percent) || 0), 0)`. -/
def totalPercent (categories : List Category) : ℚ :=
  categories.foldl (fun s c => s + numOr c.percent) 0

/-- `distributeIncome` (source lines 85–102): recompute every balance from
`income` and the percents.  Equal floor-division split when the percent sum
is zero, else `Math.round((p / Math.max(tp, 1)) * income)` per category. -/
def distributeIncome (income : ℚ) (categories : List Category) : List Category :=
  let tp := totalPercent categories
  if categories.length = 0 then categories
  else if tp = 0 then
    let equal : ℤ := ⌊income / (categories.length : ℚ)⌋
    categories.map (fun c => { c with balance := (equal : ℚ) })
  else
    categories.map (fun c =>
      let p := numOr c.percent
      let allocated := jsRound (p / max tp 1 * income)
      { c with balance := (allocated : ℚ) })

/-- The engine operation on the whole state (`distributeIncome` reads the
component's `income` and `categories` and stores the new category list). -/
def distributeOp (s : State) : State :=
  { s with categories := distributeIncome s.income s.categories }

/-- `addTransaction` (source lines 120–131): coerce the amount, sign it by
type, prepend the transaction, and clamp the touched category at zero. -/
def addTransaction (title : String) (amount : Option ℚ) (categoryId : Option String)
    (ty : String) (txId : String) (date : String) (s : State) : State :=
  let amt := numOr amount
  let signed := if ty = "expense" then -|amt| else |amt|
  let tx : Transaction := ⟨txId, title, signed, categoryId, date⟩
  let transactions := tx :: s.transactions
  let categories :=
    match categoryId with
    | none => s.categories
    | some cid =>
        s.categories.map (fun c =>
          if c.id = cid then { c with balance := max 0 (c.balance + signed) } else c)
  { s with transactions := transactions, categories := categories }

/-- `createGoal` (source lines 134–147): append a fresh goal with `saved = 0`;
if a source category is given and found with positive balance, move
`min(balance, targetAmount)` from it into the goal. -/
def createGoal (name : String) (targetAmount : Option ℚ) (fromCategoryId : Option String)
    (gid : String) (s : State) : State :=
  let g : Goal := ⟨gid, name, numOr targetAmount, 0⟩
  let goals := s.goals ++ [g]
  match fromCategoryId with
  | none => { s with goals := goals }
  | some fid =>
    match s.categories.find? (fun c => c.id == fid) with
    | none => { s with goals := goals }
    | some c =>
      if c.balance > 0 then
        let transfer := min c.balance g.targetAmount
        { s with
          categories := s.categories.map (fun cc =>
            if cc.id = fid then { cc with balance := cc.balance - transfer } else cc),
          goals := goals.map (fun gg =>
            if gg.id = g.id then { gg with saved := gg.saved + transfer } else gg) }
      else { s with goals := goals }

/-! ## Basic lemmas about the embedding -/

theorem totalPercent_eq_sum (categories : List Category) :
    totalPercent categories = (categories.map (fun c => numOr c.percent)).sum := by
  suffices h : ∀ (l : List Category) (a : ℚ),
      l.foldl (fun s c => s + numOr c.percent) a = a + (l.map (fun c => numOr c.percent)).sum by
    simpa [totalPercent] using h categories 0
  intro l
  induction l with
  | nil => intro a; simp
  | cons c t ih => intro a; simp [List.foldl_cons, ih]; ring

/-! ## C5: equal split when the percent sum is zero -/

/-- C5: for every income `I` and non-empty category list whose percents sum
to `0`, `distributeIncome` gives every category the balance
`⌊I / count⌋`; nothing else of `I` is distributed. -/
theorem distribute_equal_split (I : ℚ) (cats : List Category)
    (hne : cats ≠ []) (h0 : totalPercent cats = 0) :
    distributeIncome I cats
      = cats.map (fun c => { c with balance := ((⌊I / (cats.length : ℚ)⌋ : ℤ) : ℚ) }) := by
  have hlen : ¬ cats.length = 0 := by simpa [List.length_eq_zero] using hne
  simp [distributeIncome, h0, hlen]

/-- Witness for `distribute_equal_split`: income 7 over two zero-percent
categories gives each the balance `⌊7/2⌋ = 3`. -/
theorem distribute_equal_split_witness :
    ([⟨"a", "A", some 0, 0⟩, ⟨"b", "B", none, 0⟩] : List Category) ≠ [] ∧
    totalPercent [⟨"a", "A", some 0, 0⟩, ⟨"b", "B", none, 0⟩] = 0 ∧
    distributeIncome 7 [⟨"a", "A", some 0, 0⟩, ⟨"b", "B", none, 0⟩]
      = ([⟨"a", "A", some 0, 0⟩, ⟨"b", "B", none, 0⟩] : List Category).map
          (fun c => { c with balance :=
            ((⌊(7 : ℚ) / (([⟨"a", "A", some 0, 0⟩, ⟨"b", "B", none, 0⟩] : List Category).length : ℚ)⌋ : ℤ) : ℚ) }) :=
  ⟨by simp, by norm_num [totalPercent, numOr],
    distribute_equal_split 7 _ (by simp) (by norm_num [totalPercent, numOr])⟩

/-! ## C6: transaction sign law -/

/-- C6: `addTransaction` records a transaction of amount `-|A|` for type
`"expense"` and `+|A|` for any other type, `A` being the coerced amount. -/
theorem addTransaction_sign (title : String) (amount : Option ℚ) (cid : Option String)
    (ty txId date : String) (s : State) :
    (ty = "expense" →
      (addTransaction title amount cid ty txId date s).transactions
        = ⟨txId, title, -|numOr amount|, cid, date⟩ :: s.transactions) ∧
    (ty ≠ "expense" →
      (addTransaction title amount cid ty txId date s).transactions
        = ⟨txId, title, |numOr amount|, cid, date⟩ :: s.transactions) := by
  constructor <;> intro h <;> simp [addTransaction, h]

/-- Witness for `addTransaction_sign`: an expense of (coerced) amount `-3`
is recorded with amount `-|-3| = -3`. -/
theorem addTransaction_sign_witness :
    (addTransaction "t" (some (-3)) none "expense" "x" "d" ⟨0, [], [], []⟩).transactions
      = [⟨"x", "t", -3, none, "d"⟩] := by
  have h := (addTransaction_sign "t" (some (-3)) none "expense" "x" "d" ⟨0, [], [], []⟩).1 rfl
  rw [h]
  norm_num [numOr]

/-! ## C9: distribution is a frame on everything but `balance` -/

/-- C9: `distributeIncome` only rewrites `balance`: the `id`, `name` and
`percent` fields pass through unchanged, in the same order and number. -/
theorem distribute_frame (I : ℚ) (cats : List Category) :
    (distributeIncome I cats).map (fun c => (c.id, c.name, c.percent))
      = cats.map (fun c => (c.id, c.name, c.percent)) := by
  by_cases hlen : cats.length = 0
  · simp [distributeIncome, hlen]
  · by_cases h0 : totalPercent cats = 0 <;>
      simp [distributeIncome, hlen, h0, List.map_map]

/-! ## The proportional branch for percent sums at least 1

`distributeIncome` divides by `Math.max(totalPercent, 1)`, so the clean
proportional formula `round(percent / totalPercent * income)` only holds
once `totalPercent ≥ 1`; for `0 < totalPercent < 1` the denominator is
forced up to `1`. -/

theorem distributeIncome_of_one_le (I : ℚ) (cats : List Category)
    (h1 : 1 ≤ totalPercent cats) :
    distributeIncome I cats
      = cats.map (fun c =>
          { c with balance := ((jsRound (numOr c.percent / totalPercent cats * I) : ℤ) : ℚ) }) := by
  have hne : cats ≠ [] := by
    rintro rfl
    norm_num [totalPercent] at h1
  have hlen : ¬ cats.length = 0 := by simpa [List.length_eq_zero] using hne
  have h0 : ¬ totalPercent cats = 0 := by
    intro h
    rw [h] at h1
    norm_num at h1
  have hmax : max (totalPercent cats) 1 = totalPercent cats := max_eq_left h1
  simp [distributeIncome, hlen, h0, hmax]

theorem jsRound_cast_sub_le (x : ℚ) : |((jsRound x : ℤ) : ℚ) - x| ≤ 1/2 := by
  have h1 : ((⌊x + 1/2⌋ : ℤ) : ℚ) ≤ x + 1/2 := Int.floor_le _
  have h2 : x + 1/2 < ((⌊x + 1/2⌋ : ℤ) : ℚ) + 1 := Int.lt_floor_add_one _
  simp only [jsRound]
  rw [abs_le]
  constructor <;> linarith

theorem sum_jsRound_close (l : List ℚ) :
    |(l.map (fun x => ((jsRound x : ℤ) : ℚ))).sum - l.sum| ≤ (l.length : ℚ) * (1/2) := by
  induction l with
  | nil => simp
  | cons x t ih =>
    simp only [List.map_cons, List.sum_cons, List.length_cons]
    have hx := jsRound_cast_sub_le x
    have h3 : ((jsRound x : ℤ) : ℚ) + (t.map (fun x => ((jsRound x : ℤ) : ℚ))).sum - (x + t.sum)
        = (((jsRound x : ℤ) : ℚ) - x)
          + ((t.map (fun x => ((jsRound x : ℤ) : ℚ))).sum - t.sum) := by ring
    rw [h3]
    have habs := abs_add (((jsRound x : ℤ) : ℚ) - x)
      ((t.map (fun x => ((jsRound x : ℤ) : ℚ))).sum - t.sum)
    push_cast
    linarith

theorem sum_shares (cats : List Category) (T I : ℚ) :
    (cats.map (fun c => numOr c.percent / T * I)).sum
      = (cats.map (fun c => numOr c.percent)).sum / T * I := by
  induction cats with
  | nil => simp
  | cons c t ih =>
    simp only [List.map_cons, List.sum_cons, ih]
    ring

/-! ## C1: proportional distribution -/

/-- C1 counterexample: one category of percent `1/2`, income `10`.  The
percent sum is `1/2 > 0`, but the code divides by `max(1/2, 1) = 1` and
allocates `round(1/2 · 10) = 5`, not the claimed
`round((1/2)/(1/2) · 10) = 10`. -/
theorem distribute_proportional_cx :
    0 < totalPercent [⟨"a", "A", some (1/2), 0⟩] ∧
    (distributeIncome 10 [⟨"a", "A", some (1/2), 0⟩]).map (fun c => c.balance)
      ≠ ([⟨"a", "A", some (1/2), 0⟩] : List Category).map
          (fun c => ((jsRound (numOr c.percent / totalPercent [⟨"a", "A", some (1/2), 0⟩] * 10) : ℤ) : ℚ)) := by
  constructor
  · norm_num [totalPercent, numOr]
  · norm_num [distributeIncome, totalPercent, numOr, jsRound]

/-- C1 (amended): for every income `I` and category list whose percents sum
to `T ≥ 1`, `distributeIncome` assigns each category the balance
`round(percent / T * I)` (percents coerced to number, non-numeric as 0). -/
theorem distribute_proportional (I : ℚ) (cats : List Category)
    (h1 : 1 ≤ totalPercent cats) :
    distributeIncome I cats
      = cats.map (fun c =>
          { c with balance := ((jsRound (numOr c.percent / totalPercent cats * I) : ℤ) : ℚ) }) :=
  distributeIncome_of_one_le I cats h1

/-- Witness for `distribute_proportional`: percents 50/30/20, income 1000. -/
theorem distribute_proportional_witness :
    1 ≤ totalPercent [⟨"a", "A", some 50, 0⟩, ⟨"b", "B", some 30, 0⟩, ⟨"c", "C", some 20, 0⟩] ∧
    distributeIncome 1000 [⟨"a", "A", some 50, 0⟩, ⟨"b", "B", some 30, 0⟩, ⟨"c", "C", some 20, 0⟩]
      = ([⟨"a", "A", some 50, 0⟩, ⟨"b", "B", some 30, 0⟩, ⟨"c", "C", some 20, 0⟩] : List Category).map
          (fun c => { c with balance :=
            ((jsRound (numOr c.percent
                / totalPercent [⟨"a", "A", some 50, 0⟩, ⟨"b", "B", some 30, 0⟩, ⟨"c", "C", some 20, 0⟩]
                * 1000) : ℤ) : ℚ) }) :=
  ⟨by norm_num [totalPercent, numOr],
    distribute_proportional 1000 _ (by norm_num [totalPercent, numOr])⟩

/-! ## C4: sum of distributed balances is close to the income -/

/-- C4 counterexample: one category of percent `1/2`, income `100`.  The
percent sum is positive, yet the single balance is `round(1/2 · 100) = 50`
and `|50 - 100| = 50` exceeds the one-unit-per-category bound. -/
theorem distribute_sum_cx :
    0 < totalPercent [⟨"a", "A", some (1/2), 0⟩] ∧
    ¬ |((distributeIncome 100 [⟨"a", "A", some (1/2), 0⟩]).map (fun c => c.balance)).sum - 100|
        ≤ (([⟨"a", "A", some (1/2), 0⟩] : List Category).length : ℚ) := by
  constructor
  · norm_num [totalPercent, numOr]
  · norm_num [distributeIncome, totalPercent, numOr, jsRound]

/-- C4 (amended): for every income `I` and category list whose percents sum
to `T ≥ 1`, the balances produced by `distributeIncome` sum to within one
unit per category of `I`. -/
theorem distribute_sum_close (I : ℚ) (cats : List Category)
    (h1 : 1 ≤ totalPercent cats) :
    |((distributeIncome I cats).map (fun c => c.balance)).sum - I| ≤ (cats.length : ℚ) := by
  have hT : totalPercent cats ≠ 0 := by
    intro h
    rw [h] at h1
    norm_num at h1
  rw [distributeIncome_of_one_le I cats h1]
  have hmm :
      (cats.map (fun c =>
          { c with balance := ((jsRound (numOr c.percent / totalPercent cats * I) : ℤ) : ℚ) })).map
        (fun c => c.balance)
        = (cats.map (fun c => numOr c.percent / totalPercent cats * I)).map
            (fun x => ((jsRound x : ℤ) : ℚ)) := by
    simp [List.map_map]
  rw [hmm]
  have hsum : (cats.map (fun c => numOr c.percent / totalPercent cats * I)).sum = I := by
    rw [sum_shares, ← totalPercent_eq_sum, div_self hT, one_mul]
  have hb := sum_jsRound_close (cats.map (fun c => numOr c.percent / totalPercent cats * I))
  rw [hsum] at hb
  have hlen : ((cats.map (fun c => numOr c.percent / totalPercent cats * I)).length : ℚ)
      = (cats.length : ℚ) := by simp
  rw [hlen] at hb
  have hpos : (0 : ℚ) ≤ (cats.length : ℚ) := by positivity
  linarith

/-- Witness for `distribute_sum_close`: percents 50/30/20, income 1000. -/
theorem distribute_sum_close_witness :
    1 ≤ totalPercent [⟨"a", "A", some 50, 0⟩, ⟨"b", "B", some 30, 0⟩, ⟨"c", "C", some 20, 0⟩] ∧
    |((distributeIncome 1000
        [⟨"a", "A", some 50, 0⟩, ⟨"b", "B", some 30, 0⟩, ⟨"c", "C", some 20, 0⟩]).map
          (fun c => c.balance)).sum - 1000|
      ≤ (([⟨"a", "A", some 50, 0⟩, ⟨"b", "B", some 30, 0⟩, ⟨"c", "C", some 20, 0⟩] : List Category).length : ℚ) :=
  ⟨by norm_num [totalPercent, numOr],
    distribute_sum_close 1000 _ (by norm_num [totalPercent, numOr])⟩

/-! ## Helper lemmas about `createGoal` and balance non-negativity -/

/-- With pairwise-distinct category ids, `find?` returns exactly the member
carrying the sought id. -/
theorem find?_id_eq_of_nodup (fid : String) (cats : List Category)
    (hnodup : (cats.map Category.id).Nodup)
    (c : Category) (hc : c ∈ cats) (hid : c.id = fid) :
    cats.find? (fun x => x.id == fid) = some c := by
  induction cats with
  | nil => cases hc
  | cons a t ih =>
    rw [List.map_cons, List.nodup_cons] at hnodup
    by_cases ha : a.id = fid
    · have hca : c = a := by
        rcases List.mem_cons.mp hc with h | h
        · exact h
        · exfalso
          apply hnodup.1
          rw [ha, ← hid]
          exact List.mem_map_of_mem Category.id h
      subst hca
      exact List.find?_cons_of_pos _ (by simp [ha])
    · have hct : c ∈ t := by
        rcases List.mem_cons.mp hc with h | h
        · exfalso
          rw [h] at hid
          exact ha hid
        · exact h
      rw [List.find?_cons_of_neg _ (by simp [ha])]
      exact ih hnodup.2 hct

/-- Shape of `createGoal` when the source category is found with positive
balance and the generated goal id is fresh: the goal list gains one goal
holding the transferred amount, and every category whose id is `fid` loses
`min balance target`. -/
theorem createGoal_transfer (s : State) (name : String) (target : Option ℚ)
    (fid gid : String) (c : Category)
    (hfind : s.categories.find? (fun x => x.id == fid) = some c)
    (hB : 0 < c.balance)
    (hfresh : ∀ g ∈ s.goals, g.id ≠ gid) :
    (createGoal name target (some fid) gid s).categories
      = s.categories.map (fun cc =>
          if cc.id = fid then { cc with balance := cc.balance - min c.balance (numOr target) } else cc)
    ∧ (createGoal name target (some fid) gid s).goals
      = s.goals ++ [⟨gid, name, numOr target, min c.balance (numOr target)⟩] := by
  simp only [createGoal, hfind]
  rw [if_pos hB]
  refine ⟨rfl, ?_⟩
  rw [List.map_append]
  have h1 : s.goals.map (fun gg =>
      if gg.id = gid then { gg with saved := gg.saved + min c.balance (numOr target) } else gg)
      = s.goals.map id := by
    apply List.map_congr_left
    intro g hg
    simp [hfresh g hg]
  simp only [h1, List.map_id, List.map_cons, List.map_nil]
  simp

/-- `addTransaction` keeps every balance non-negative: a touched category is
clamped with `max 0 ·`, the rest are untouched. -/
theorem addTransaction_nonneg (title : String) (amount : Option ℚ) (cid : Option String)
    (ty txId date : String) (s : State)
    (h : ∀ c ∈ s.categories, 0 ≤ c.balance) :
    ∀ c ∈ (addTransaction title amount cid ty txId date s).categories, 0 ≤ c.balance := by
  intro c hc
  simp only [addTransaction] at hc
  match cid with
  | none => exact h c hc
  | some cid0 =>
    simp only [List.mem_map] at hc
    obtain ⟨c0, hc0, rfl⟩ := hc
    by_cases hid : c0.id = cid0
    · simp only [hid, if_pos rfl]
      exact le_max_left 0 _
    · simp only [if_neg hid]
      exact h c0 hc0

/-- `createGoal` keeps every balance non-negative when category ids are
pairwise distinct: the funded category loses `min balance target ≤ balance`. -/
theorem createGoal_nonneg (name : String) (target : Option ℚ) (fid : Option String)
    (gid : String) (s : State)
    (hnodup : (s.categories.map Category.id).Nodup)
    (h : ∀ c ∈ s.categories, 0 ≤ c.balance) :
    ∀ c ∈ (createGoal name target fid gid s).categories, 0 ≤ c.balance := by
  intro c hc
  match fid with
  | none => exact h c hc
  | some fid0 =>
    cases hfind : s.categories.find? (fun x => x.id == fid0) with
    | none =>
      simp only [createGoal, hfind] at hc
      exact h c hc
    | some c0 =>
      simp only [createGoal, hfind] at hc
      by_cases hB : c0.balance > 0
      · rw [if_pos hB] at hc
        simp only [List.mem_map] at hc
        obtain ⟨cc, hcc, rfl⟩ := hc
        by_cases hid : cc.id = fid0
        · have hceq : cc = c0 := by
            have hc0mem : c0 ∈ s.categories := List.mem_of_find?_eq_some hfind
            have hc0id : c0.id = fid0 := by
              have := List.find?_some hfind
              simpa using this
            exact List.inj_on_of_nodup_map hnodup hcc hc0mem (by rw [hid, hc0id])
          rw [if_pos hid]
          show 0 ≤ cc.balance - min c0.balance (numOr target)
          have hmin : min c0.balance (numOr target) ≤ cc.balance := by
            rw [hceq]
            exact min_le_left _ _
          linarith
        · rw [if_neg hid]
          exact h cc hcc
      · rw [if_neg hB] at hc
        exact h c hc

/-- `distributeIncome` yields only non-negative balances when the income is
non-negative and every percent coerces to a non-negative number. -/
theorem distributeIncome_nonneg (I : ℚ) (cats : List Category)
    (hI : 0 ≤ I) (hp : ∀ c ∈ cats, 0 ≤ numOr c.percent) :
    ∀ c ∈ distributeIncome I cats, 0 ≤ c.balance := by
  intro c hc
  simp only [distributeIncome] at hc
  by_cases hlen : cats.length = 0
  · rw [if_pos hlen] at hc
    rw [List.length_eq_zero.mp hlen] at hc
    cases hc
  · rw [if_neg hlen] at hc
    have hnpos : (0 : ℚ) < (cats.length : ℚ) := by
      have : 0 < cats.length := Nat.pos_of_ne_zero hlen
      exact_mod_cast this
    by_cases h0 : totalPercent cats = 0
    · rw [if_pos h0] at hc
      simp only [List.mem_map] at hc
      obtain ⟨c0, _, rfl⟩ := hc
      simp only []
      have : (0 : ℤ) ≤ ⌊I / (cats.length : ℚ)⌋ :=
        Int.floor_nonneg.mpr (div_nonneg hI (le_of_lt hnpos))
      exact_mod_cast this
    · rw [if_neg h0] at hc
      simp only [List.mem_map] at hc
      obtain ⟨c0, hc0, rfl⟩ := hc
      have hmax : (0 : ℚ) < max (totalPercent cats) 1 :=
        lt_of_lt_of_le one_pos (le_max_right _ _)
      have hx : 0 ≤ numOr c0.percent / max (totalPercent cats) 1 * I :=
        mul_nonneg (div_nonneg (hp c0 hc0) (le_of_lt hmax)) hI
      have : (0 : ℤ) ≤ jsRound (numOr c0.percent / max (totalPercent cats) 1 * I) := by
        simp only [jsRound]
        exact Int.floor_nonneg.mpr (by linarith)
      show (0 : ℚ) ≤ ((jsRound (numOr c0.percent / max (totalPercent cats) 1 * I) : ℤ) : ℚ)
      exact_mod_cast this

/-! ## C2: balance non-negativity under the engine operations -/

/-- C2 counterexample: distributing a negative income drives a balance
negative.  Starting from the all-balances-zero state with one 50-percent
category, `distribute` on income `-100` overwrites the balance with
`round(50/50 · (-100)) = -100 < 0`, so not every engine operation
preserves non-negativity for all inputs. -/
theorem engine_ops_nonneg_cx :
    ((⟨-100, [⟨"a", "A", some 50, 0⟩], [], []⟩ : State).categories.map (fun c => c.balance) = [0])
    ∧ (distributeOp ⟨-100, [⟨"a", "A", some 50, 0⟩], [], []⟩).categories.map (fun c => c.balance)
        = [-100]
    ∧ ¬ (0 : ℚ) ≤ (-100 : ℚ) := by
  refine ⟨by norm_num, ?_, by norm_num⟩
  norm_num [distributeOp, distributeIncome, totalPercent, numOr, jsRound]

/-- C2 (amended): `addTransaction` preserves non-negativity of all balances
for all inputs; `createGoal` preserves it on states whose category ids are
pairwise distinct; `distribute` yields non-negative balances whenever the
income is non-negative and every percent coerces to a non-negative number
(a negative income or negative percents can produce negative balances). -/
theorem engine_ops_nonneg :
    (∀ (title : String) (amount : Option ℚ) (cid : Option String) (ty txId date : String)
      (s : State), (∀ c ∈ s.categories, 0 ≤ c.balance) →
      ∀ c ∈ (addTransaction title amount cid ty txId date s).categories, 0 ≤ c.balance)
    ∧ (∀ (name : String) (target : Option ℚ) (fid : Option String) (gid : String) (s : State),
      (s.categories.map Category.id).Nodup → (∀ c ∈ s.categories, 0 ≤ c.balance) →
      ∀ c ∈ (createGoal name target fid gid s).categories, 0 ≤ c.balance)
    ∧ (∀ s : State, 0 ≤ s.income → (∀ c ∈ s.categories, 0 ≤ numOr c.percent) →
      ∀ c ∈ (distributeOp s).categories, 0 ≤ c.balance) :=
  ⟨addTransaction_nonneg, createGoal_nonneg,
    fun s hI hp => distributeIncome_nonneg s.income s.categories hI hp⟩

/-- Witness for `engine_ops_nonneg`: an expense with non-numeric amount on a
category of balance 10 leaves that category at balance `max 0 (10 - 0) = 10 ≥ 0`. -/
theorem engine_ops_nonneg_witness :
    (0 : ℚ) ≤ (Category.mk "a" "A" (some 50) 10).balance :=
  engine_ops_nonneg.1 "t" none (some "a") "expense" "x" "d"
    ⟨100, [⟨"a", "A", some 50, 10⟩], [], []⟩
    (by
      intro c hc
      simp only [List.mem_singleton] at hc
      subst hc
      norm_num)
    ⟨"a", "A", some 50, 10⟩
    (by norm_num [addTransaction, numOr, max_def])

/-! ## C3: goal funding boundary -/

/-- C3 counterexample: a source category of balance `B = 0` and target `-5`.
The claim demands `saved = min(0, -5) = -5` and the balance to drop by that
amount; the code only transfers when the balance is strictly positive, so
the goal is created with `saved = 0`. -/
theorem createGoal_funding_cx :
    (createGoal "g" (some (-5)) (some "a") "g1" ⟨0, [⟨"a", "A", some 0, 0⟩], [], []⟩).goals
      = [⟨"g1", "g", -5, 0⟩]
    ∧ ((0 : ℚ) ≠ min (0 : ℚ) (-5)) := by
  constructor
  · have hfind : ([⟨"a", "A", some 0, 0⟩] : List Category).find? (fun x => x.id == "a")
        = some ⟨"a", "A", some 0, 0⟩ := by
      simp [List.find?]
    norm_num [createGoal, hfind, numOr]
  · norm_num [min_def]

/-- C3 (amended): for every state with pairwise-distinct category ids that
contains a category `c` with id `fid` and balance `B > 0`, and a fresh goal
id, `createGoal` appends a goal with `saved = min(B, t)` (`t` the coerced
target) and decreases exactly the `fid` category's balance by `min(B, t)`,
leaving every other category unchanged. -/
theorem createGoal_funding (s : State) (name : String) (target : Option ℚ)
    (fid gid : String) (c : Category)
    (hnodup : (s.categories.map Category.id).Nodup)
    (hc : c ∈ s.categories) (hid : c.id = fid)
    (hB : 0 < c.balance)
    (hfresh : ∀ g ∈ s.goals, g.id ≠ gid) :
    (createGoal name target (some fid) gid s).goals
      = s.goals ++ [⟨gid, name, numOr target, min c.balance (numOr target)⟩]
    ∧ (createGoal name target (some fid) gid s).categories
      = s.categories.map (fun cc =>
          if cc.id = fid then { cc with balance := cc.balance - min c.balance (numOr target) }
          else cc) := by
  have hfind := find?_id_eq_of_nodup fid s.categories hnodup c hc hid
  have h := createGoal_transfer s name target fid gid c hfind hB hfresh
  exact ⟨h.2, h.1⟩

/-- Witness for `createGoal_funding`: balance 300, target 1000 transfers
`min(300, 1000) = 300`, zeroing the category. -/
theorem createGoal_funding_witness :
    (createGoal "Trip" (some 1000) (some "a") "g1" ⟨1000, [⟨"a", "A", some 50, 300⟩], [], []⟩).goals
      = [⟨"g1", "Trip", 1000, 300⟩]
    ∧ (createGoal "Trip" (some 1000) (some "a") "g1"
        ⟨1000, [⟨"a", "A", some 50, 300⟩], [], []⟩).categories
      = [⟨"a", "A", some 50, 0⟩] := by
  have h := createGoal_funding ⟨1000, [⟨"a", "A", some 50, 300⟩], [], []⟩ "Trip" (some 1000)
      "a" "g1" ⟨"a", "A", some 50, 300⟩ (by simp) (by simp) rfl (by norm_num) (by simp)
  constructor
  · rw [h.1]
    norm_num [numOr, min_def]
  · rw [h.2]
    norm_num [numOr, min_def]

/-! ## C10: a negative coerced target deposits into the source category -/

/-- C10: with a source category of balance `B > 0` and a target coercing to
`t < 0`, `createGoal` produces a goal with `saved = t` (negative) and sets
the source balance to `B - t > B` — it deposits instead of withdrawing. -/
theorem createGoal_negative_target (s : State) (name fid gid : String) (t : ℚ)
    (hnodup : (s.categories.map Category.id).Nodup)
    (c : Category) (hc : c ∈ s.categories) (hid : c.id = fid)
    (hB : 0 < c.balance) (ht : t < 0)
    (hfresh : ∀ g ∈ s.goals, g.id ≠ gid) :
    (createGoal name (some t) (some fid) gid s).goals
      = s.goals ++ [⟨gid, name, t, t⟩]
    ∧ (createGoal name (some t) (some fid) gid s).categories
      = s.categories.map (fun cc =>
          if cc.id = fid then { cc with balance := cc.balance - t } else cc)
    ∧ c.balance < c.balance - t := by
  have hfind := find?_id_eq_of_nodup fid s.categories hnodup c hc hid
  have hmin : min c.balance (numOr (some t)) = t := by
    have : numOr (some t) = t := rfl
    rw [this]
    exact min_eq_right (le_of_lt (lt_trans ht hB))
  have h := createGoal_transfer s name (some t) fid gid c hfind hB hfresh
  refine ⟨?_, ?_, by linarith⟩
  · rw [h.2, hmin]
    rfl
  · rw [h.1]
    apply List.map_congr_left
    intro cc _
    rw [hmin]

/-- Witness for `createGoal_negative_target`: balance 5, target `-3` yields
a goal saved `-3` and raises the balance to `8 > 5`. -/
theorem createGoal_negative_target_witness :
    (createGoal "g" (some (-3)) (some "a") "g1" ⟨0, [⟨"a", "A", some 50, 5⟩], [], []⟩).goals
      = [⟨"g1", "g", -3, -3⟩]
    ∧ (createGoal "g" (some (-3)) (some "a") "g1" ⟨0, [⟨"a", "A", some 50, 5⟩], [], []⟩).categories
      = [⟨"a", "A", some 50, 8⟩]
    ∧ (5 : ℚ) < 8 := by
  have h := createGoal_negative_target ⟨0, [⟨"a", "A", some 50, 5⟩], [], []⟩ "g" "a" "g1" (-3)
      (by simp) ⟨"a", "A", some 50, 5⟩ (by simp) rfl (by norm_num) (by norm_num) (by simp)
  refine ⟨?_, ?_, by norm_num⟩
  · rw [h.1]
    rfl
  · rw [h.2.1]
    norm_num

/-! ## Snapshot: export / import

`exportData` (source lines 150–159) serializes
`{ income, categories, transactions, goals }` with `JSON.stringify`;
`importData` (source lines 161–177) parses the chosen file with
`JSON.parse`, then replaces each of the four fields that the parsed
document provides (`parsed.x ?? x` keeps the current value when the field
is absent or null), and alerts "Invalid file" on a parse error, touching
nothing.  The string layer is not modelled: `JSON.parse ∘ JSON.stringify`
is the identity on JSON documents (for finite numbers), so serialization
is modelled as the JSON tree itself, and a document that fails to parse is
the `none` input.  `NaN` (`none` in the `Option ℚ` number model)
stringifies to `null`, hence `encNumOpt none = Json.null`. -/

inductive Json where
  | null : Json
  | bool : Bool → Json
  | num : ℚ → Json
  | str : String → Json
  | arr : List Json → Json
  | obj : List (String × Json) → Json

def lookupField : List (String × Json) → String → Option Json
  | [], _ => none
  | (k, v) :: rest, key => if k = key then some v else lookupField rest key

def getField : Json → String → Option Json
  | Json.obj fields, key => lookupField fields key
  | _, _ => none

def encNumOpt : Option ℚ → Json
  | none => Json.null
  | some q => Json.num q

def encStrOpt : Option String → Json
  | none => Json.null
  | some s0 => Json.str s0

def encCategory (c : Category) : Json :=
  Json.obj [("id", Json.str c.id), ("name", Json.str c.name),
    ("percent", encNumOpt c.percent), ("balance", Json.num c.balance)]

def encTransaction (t : Transaction) : Json :=
  Json.obj [("id", Json.str t.id), ("title", Json.str t.title),
    ("amount", Json.num t.amount), ("categoryId", encStrOpt t.categoryId),
    ("date", Json.str t.date)]

def encGoal (g : Goal) : Json :=
  Json.obj [("id", Json.str g.id), ("name", Json.str g.name),
    ("targetAmount", Json.num g.targetAmount), ("saved", Json.num g.saved)]

/-- The serialized payload `{ income, categories, transactions, goals }`. -/
def exportData (s : State) : Json :=
  Json.obj [("income", Json.num s.income),
    ("categories", Json.arr (s.categories.map encCategory)),
    ("transactions", Json.arr (s.transactions.map encTransaction)),
    ("goals", Json.arr (s.goals.map encGoal))]

def decNum : Json → Option ℚ
  | Json.num q => some q
  | _ => none

def decNumOpt : Json → Option (Option ℚ)
  | Json.null => some none
  | Json.num q => some (some q)
  | _ => none

def decStrOpt : Json → Option (Option String)
  | Json.null => some none
  | Json.str s0 => some (some s0)
  | _ => none

def decCategory (j : Json) : Option Category :=
  match getField j "id", getField j "name", getField j "percent", getField j "balance" with
  | some (Json.str i), some (Json.str n), some p, some (Json.num b) =>
    match decNumOpt p with
    | some pq => some ⟨i, n, pq, b⟩
    | none => none
  | _, _, _, _ => none

def decTransaction (j : Json) : Option Transaction :=
  match getField j "id", getField j "title", getField j "amount",
      getField j "categoryId", getField j "date" with
  | some (Json.str i), some (Json.str ti), some (Json.num a), some cj, some (Json.str d) =>
    match decStrOpt cj with
    | some cid => some ⟨i, ti, a, cid, d⟩
    | none => none
  | _, _, _, _, _ => none

def decGoal (j : Json) : Option Goal :=
  match getField j "id", getField j "name", getField j "targetAmount", getField j "saved" with
  | some (Json.str i), some (Json.str n), some (Json.num t), some (Json.num sv) =>
    some ⟨i, n, t, sv⟩
  | _, _, _, _ => none

def decListWith {α : Type} (dec : Json → Option α) : List Json → Option (List α)
  | [] => some []
  | j :: rest =>
    match dec j, decListWith dec rest with
    | some x, some xs => some (x :: xs)
    | _, _ => none

def decArr {α : Type} (dec : Json → Option α) : Json → Option (List α)
  | Json.arr xs => decListWith dec xs
  | _ => none

inductive ImportError where
  | invalidFormat : ImportError
deriving DecidableEq

/-- `importData` over a parsed (or unparseable, `none`) document and the
current in-memory state. -/
def importData (doc : Option Json) (s : State) : Option ImportError × State :=
  match doc with
  | none => (some ImportError.invalidFormat, s)
  | some j =>
    (none,
      { income := ((getField j "income").bind decNum).getD s.income,
        categories := ((getField j "categories").bind (decArr decCategory)).getD s.categories,
        transactions :=
          ((getField j "transactions").bind (decArr decTransaction)).getD s.transactions,
        goals := ((getField j "goals").bind (decArr decGoal)).getD s.goals })

theorem decCategory_encCategory (c : Category) : decCategory (encCategory c) = some c := by
  obtain ⟨i, n, p, b⟩ := c
  cases p <;> rfl

theorem decTransaction_encTransaction (t : Transaction) :
    decTransaction (encTransaction t) = some t := by
  obtain ⟨i, ti, a, cid, d⟩ := t
  cases cid <;> rfl

theorem decGoal_encGoal (g : Goal) : decGoal (encGoal g) = some g := by
  obtain ⟨i, n, t, sv⟩ := g
  rfl

theorem decListWith_enc {α : Type} (dec : Json → Option α) (enc : α → Json)
    (h : ∀ x, dec (enc x) = some x) (xs : List α) :
    decListWith dec (xs.map enc) = some xs := by
  induction xs with
  | nil => rfl
  | cons x t ih => simp [List.map_cons, decListWith, h x, ih]

/-! ## C7: snapshot round-trip -/

/-- C7: re-importing the exported form of a valid state (one whose percents
are all numeric — a `NaN` percent would stringify to `null`) reproduces
that state exactly, whatever state is in memory at import time. -/
theorem exportData_importData_roundtrip (s cur : State)
    (hval : ∀ c ∈ s.categories, c.percent.isSome = true) :
    importData (some (exportData s)) cur = (none, s) := by
  obtain ⟨I, cats, txs, gls⟩ := s
  have h1 : getField (exportData ⟨I, cats, txs, gls⟩) "income" = some (Json.num I) := rfl
  have h2 : getField (exportData ⟨I, cats, txs, gls⟩) "categories"
      = some (Json.arr (cats.map encCategory)) := rfl
  have h3 : getField (exportData ⟨I, cats, txs, gls⟩) "transactions"
      = some (Json.arr (txs.map encTransaction)) := rfl
  have h4 : getField (exportData ⟨I, cats, txs, gls⟩) "goals"
      = some (Json.arr (gls.map encGoal)) := rfl
  have hcat : decArr decCategory (Json.arr (cats.map encCategory)) = some cats :=
    decListWith_enc decCategory encCategory decCategory_encCategory cats
  have htx : decArr decTransaction (Json.arr (txs.map encTransaction)) = some txs :=
    decListWith_enc decTransaction encTransaction decTransaction_encTransaction txs
  have hgl : decArr decGoal (Json.arr (gls.map encGoal)) = some gls :=
    decListWith_enc decGoal encGoal decGoal_encGoal gls
  simp [importData, h1, h2, h3, h4, hcat, htx, hgl, decNum]

/-- Witness for `exportData_importData_roundtrip` on a concrete state with
one category, one transaction and one goal. -/
theorem exportData_importData_roundtrip_witness :
    importData
        (some (exportData ⟨50000, [⟨"cat1", "Essentials", some 50, 25000⟩],
          [⟨"tx1", "Lunch", -12, some "cat1", "2026-01-01"⟩], [⟨"g1", "Trip", 1000, 300⟩]⟩))
        ⟨50000, [⟨"cat1", "Essentials", some 50, 25000⟩],
          [⟨"tx1", "Lunch", -12, some "cat1", "2026-01-01"⟩], [⟨"g1", "Trip", 1000, 300⟩]⟩
      = (none, ⟨50000, [⟨"cat1", "Essentials", some 50, 25000⟩],
          [⟨"tx1", "Lunch", -12, some "cat1", "2026-01-01"⟩], [⟨"g1", "Trip", 1000, 300⟩]⟩) :=
  exportData_importData_roundtrip _ _ (by simp)

/-! ## C8: parse failure is signalled and atomic -/

/-- C8: when the chosen document does not parse as JSON, the import
operation reports `invalidFormat` and returns the state unchanged. -/
theorem importData_parse_failure (s : State) :
    importData none s = (some ImportError.invalidFormat, s) := rfl
